import Mathlib

/-!
Shallow embedding of the pay-per-second streaming accounting server
(`src/unnamed/part_005`): the in-memory session registry, the per-user
ledger, the lifecycle API (start/stop), the periodic aggregation tick and
the stale-session reaper. JavaScript `Map`s are modelled as insertion-ordered
association lists with `mapGet` / `mapSet` / `mapDelete` mirroring
`Map.get` / `Map.set` / `Map.delete`. Timestamps are milliseconds as `Int`,
and `Math.floor((now - start) / 1000)` is `Int.fdiv (now - start) 1000`.
-/

namespace Streams

/-- `Map.get`: first (unique, under `nodupKeys`) binding of a key. -/
def mapGet {α : Type} : List (String × α) → String → Option α
  | [], _ => none
  | (k', v) :: rest, k => if k' = k then some v else mapGet rest k

/-- `Map.set`: replace the binding in place if the key exists, else append. -/
def mapSet {α : Type} : List (String × α) → String → α → List (String × α)
  | [], k, v => [(k, v)]
  | (k', v') :: rest, k, v =>
      if k' = k then (k', v) :: rest else (k', v') :: mapSet rest k v

/-- `Map.delete`: remove the binding of a key. -/
def mapDelete {α : Type} : List (String × α) → String → List (String × α)
  | [], _ => []
  | (k', v') :: rest, k =>
      if k' = k then rest else (k', v') :: mapDelete rest k

/-- The keys of an association list. -/
def keys {α : Type} (m : List (String × α)) : List String :=
  m.map Prod.fst

/-- A JS `Map` never holds two bindings of one key. -/
abbrev nodupKeys {α : Type} (m : List (String × α)) : Prop :=
  (keys m).Nodup

/-- `ActiveSession` (source lines 20–25). -/
structure ActiveSession where
  sessionId : String
  userId : String
  contentId : String
  startTime : Int
deriving DecidableEq, Repr

/-- `UserLedger` (source lines 29–33). -/
structure UserLedger where
  userId : String
  totalSeconds : Int
  lastUpdate : Int
deriving DecidableEq, Repr

/-- The server's mutable state: `activeSessions`, `userLedger`, `isInitialized`
(source lines 35–40). -/
structure ServerState where
  activeSessions : List (String × ActiveSession)
  userLedger : List (String × UserLedger)
  isInitialized : Bool
deriving DecidableEq, Repr

/-- `PRICE_PER_SECOND = 0.001` (source line 17), as an exact rational. -/
def PRICE_PER_SECOND : ℚ := 1 / 1000

/-- `AUTO_STOP_TIMEOUT = 5 * 60 * 1000` ms (source line 300). -/
def AUTO_STOP_TIMEOUT : Int := 5 * 60 * 1000

/-- `Math.floor((now - startTime) / 1000)`: elapsed whole seconds. -/
def elapsedSec (now startTime : Int) : Int :=
  Int.fdiv (now - startTime) 1000

/-- JS truthiness of a request field holding a string: `undefined` (`none`)
and the empty string are falsy. -/
def present : Option String → Bool
  | none => false
  | some s => s ≠ ""

/-- Result of `POST /api/stream/start` (source lines 66–119). -/
inductive StartResult where
  | validationError
  | notReadyError
  | ok (sessionId : String) (pricePerSecond : ℚ) (startTime : Int)
deriving DecidableEq, Repr

/-- `POST /api/stream/start` (source lines 66–119): validation check, then
initialization check; on success inserts a fresh session stamped `now` and
initializes the user's ledger entry if absent. The fresh `sessionId` produced
by `generateSessionId` is the parameter `freshId`. -/
def start (st : ServerState) (userId contentId : Option String)
    (freshId : String) (now : Int) : StartResult × ServerState :=
  if ¬ (present userId ∧ present contentId) then
    (.validationError, st)
  else if ¬ st.isInitialized then
    (.notReadyError, st)
  else
    let uid := userId.getD ""
    let cid := contentId.getD ""
    let session : ActiveSession := ⟨freshId, uid, cid, now⟩
    let sessions := mapSet st.activeSessions freshId session
    let ledger :=
      if (mapGet st.userLedger uid).isSome then st.userLedger
      else mapSet st.userLedger uid ⟨uid, 0, now⟩
    (.ok freshId PRICE_PER_SECOND now,
      { st with activeSessions := sessions, userLedger := ledger })

/-- Result of `POST /api/stream/stop` (source lines 125–179). -/
inductive StopResult where
  | validationError
  | notFoundError
  | forbiddenError
  | ok (sessionId : String) (sessionSeconds : Int) (sessionCost : ℚ)
       (userTotalSeconds : Int)
deriving DecidableEq, Repr

/-- `POST /api/stream/stop` (source lines 125–179): validation, lookup,
ownership check; on success deletes the session and reports its duration,
its cost and the user's current ledger total (`ledgerEntry?.totalSeconds || 0`),
without touching the ledger. -/
def stop (st : ServerState) (sessionId userId : Option String)
    (now : Int) : StopResult × ServerState :=
  if ¬ (present sessionId ∧ present userId) then
    (.validationError, st)
  else
    let sid := sessionId.getD ""
    let uid := userId.getD ""
    match mapGet st.activeSessions sid with
    | none => (.notFoundError, st)
    | some session =>
        if session.userId ≠ uid then (.forbiddenError, st)
        else
          let sessionSeconds := elapsedSec now session.startTime
          let sessionCost := (sessionSeconds : ℚ) * PRICE_PER_SECOND
          let userTotal :=
            ((mapGet st.userLedger session.userId).map
              (fun e => e.totalSeconds)).getD 0
          (.ok sid sessionSeconds sessionCost userTotal,
            { st with activeSessions := mapDelete st.activeSessions sid })

/-- The first loop of the aggregation tick (source lines 266–272): fold the
active sessions into the per-user `userSecondsMap`, adding each session's
floor-elapsed seconds to the user's running sum. -/
def accumUserSecs (now : Int) :
    List (String × Int) → List (String × ActiveSession) → List (String × Int)
  | m, [] => m
  | m, (_, s) :: rest =>
      accumUserSecs now
        (mapSet m s.userId (((mapGet m s.userId).getD 0) + elapsedSec now s.startTime))
        rest

/-- The second loop of the aggregation tick (source lines 275–282): for each
user in the per-user seconds map, overwrite `totalSeconds` and `lastUpdate`
in the ledger — a no-op for a user with no ledger entry. -/
def applyUserSecs (now : Int) :
    List (String × UserLedger) → List (String × Int) → List (String × UserLedger)
  | led, [] => led
  | led, (uid, secs) :: rest =>
      applyUserSecs now
        (match mapGet led uid with
         | some e => mapSet led uid { e with totalSeconds := secs, lastUpdate := now }
         | none => led)
        rest

/-- One aggregation tick (source lines 262–297). The publish step hands a
snapshot to the external publisher and does not change the state. -/
def aggregationTick (st : ServerState) (now : Int) : ServerState :=
  { st with userLedger :=
      applyUserSecs now st.userLedger (accumUserSecs now [] st.activeSessions) }

/-- One reaper tick (source lines 301–319): delete every session whose
elapsed time exceeds `AUTO_STOP_TIMEOUT`; the ledger is not touched. -/
def reaperTick (st : ServerState) (now : Int) : ServerState :=
  { st with activeSessions :=
      st.activeSessions.filter fun p =>
        decide (¬ (now - p.2.startTime > AUTO_STOP_TIMEOUT)) }

/-- The sum, over a user's active sessions, of each session's floor-elapsed
seconds — the value the aggregation tick assigns to that user. -/
def userActiveSum (now : Int) (u : String) :
    List (String × ActiveSession) → Int
  | [] => 0
  | (_, s) :: rest =>
      (if s.userId = u then elapsedSec now s.startTime else 0) +
        userActiveSum now u rest

/-- Whether some active session belongs to user `u`. -/
def hasActive (sessions : List (String × ActiveSession)) (u : String) : Bool :=
  sessions.any fun p => decide (p.2.userId = u)

/-! ### Example states -/

/-- Two open sessions of user `u` started at 0 ms and 2000 ms; user `v` has a
ledger entry but no open session. -/
def exTwoSessions : ServerState :=
  { activeSessions := [("s1", ⟨"s1", "u", "c1", 0⟩), ("s2", ⟨"s2", "u", "c2", 2000⟩)],
    userLedger := [("u", ⟨"u", 0, 0⟩), ("v", ⟨"v", 42, 1000⟩)],
    isInitialized := true }

/-- An old session `a` (started at 0) and a younger session `b` (started at
100000), for the reaper. -/
def exReap : ServerState :=
  { activeSessions := [("a", ⟨"a", "u", "c", 0⟩), ("b", ⟨"b", "u", "c", 100000⟩)],
    userLedger := [("u", ⟨"u", 7, 50⟩)],
    isInitialized := true }

/-- Trace refuting tick-to-tick monotonicity of `totalSeconds` under an
intervening `stop`: user `u` opens sessions `s1` and `s2` at time 0. -/
def cexAfterStarts : ServerState :=
  (start (start ⟨[], [], true⟩ (some "u") (some "c1") "s1" 0).2
    (some "u") (some "c2") "s2" 0).2

/-- The trace after the aggregation tick at 10000 ms (`u`'s total is 20). -/
def cexAfterTick1 : ServerState := aggregationTick cexAfterStarts 10000

/-- The trace after `u` stops `s1` at 10000 ms; `s2` stays open, the ledger
still reads 20. -/
def cexAfterStop : ServerState :=
  (stop cexAfterTick1 (some "s1") (some "u") 10000).2

/-- The trace after the next aggregation tick at 11000 ms (`u`'s total is
recomputed to 11 < 20). -/
def cexAfterTick2 : ServerState := aggregationTick cexAfterStop 11000

/-! ### Association-list map lemmas -/

theorem mapGet_mapSet {α : Type} (m : List (String × α)) (k : String) (v : α)
    (k' : String) :
    mapGet (mapSet m k v) k' = if k' = k then some v else mapGet m k' := by
  induction m with
  | nil =>
      simp only [mapSet, mapGet]
      by_cases h : k' = k
      · simp [h]
      · simp [h, Ne.symm h]
  | cons p rest ih =>
      obtain ⟨k₀, v₀⟩ := p
      simp only [mapSet]
      by_cases h₀ : k₀ = k
      · subst h₀
        simp only [if_pos rfl, mapGet]
        by_cases h : k₀ = k'
        · subst h; simp
        · have h' : ¬ k' = k₀ := fun hh => h hh.symm
          simp [h, h']
      · simp only [if_neg h₀, mapGet, ih]
        by_cases h2 : k' = k
        · subst h2; simp [h₀]
        · simp [h2]

theorem mapGet_eq_none_iff {α : Type} (m : List (String × α)) (k : String) :
    mapGet m k = none ↔ k ∉ keys m := by
  induction m with
  | nil => simp [mapGet, keys]
  | cons p rest ih =>
      obtain ⟨k₀, v₀⟩ := p
      simp only [mapGet, keys, List.map_cons, List.mem_cons]
      by_cases h : k₀ = k
      · subst h; simp
      · simp only [if_neg h]
        rw [ih]
        have hk : ¬ k = k₀ := fun hh => h hh.symm
        simp [keys, hk]

theorem mapGet_isSome_iff {α : Type} (m : List (String × α)) (k : String) :
    (mapGet m k).isSome ↔ k ∈ keys m := by
  cases h : mapGet m k with
  | none => simp [(mapGet_eq_none_iff m k).1 h]
  | some v =>
      simp only [Option.isSome_some, true_iff]
      by_contra hmem
      exact absurd ((mapGet_eq_none_iff m k).2 hmem) (by simp [h])

theorem mem_keys_mapSet {α : Type} (m : List (String × α)) (k : String) (v : α)
    (a : String) : a ∈ keys (mapSet m k v) ↔ a ∈ keys m ∨ a = k := by
  induction m with
  | nil => simp [mapSet, keys]
  | cons p rest ih =>
      obtain ⟨k₀, v₀⟩ := p
      simp only [mapSet]
      by_cases h : k₀ = k
      · subst h; simp [keys]; tauto
      · simp only [if_neg h, keys, List.map_cons, List.mem_cons] at ih ⊢
        rw [ih]; tauto

theorem nodupKeys_mapSet {α : Type} (m : List (String × α)) (k : String) (v : α)
    (h : nodupKeys m) : nodupKeys (mapSet m k v) := by
  induction m with
  | nil => simp [mapSet, nodupKeys, keys]
  | cons p rest ih =>
      obtain ⟨k₀, v₀⟩ := p
      simp only [nodupKeys, keys, List.map_cons, List.nodup_cons] at h
      by_cases hk : k₀ = k
      · simpa [mapSet, hk, nodupKeys, keys, List.nodup_cons] using h
      · have ih' := ih h.2
        simp only [mapSet, if_neg hk, nodupKeys, keys, List.map_cons,
          List.nodup_cons]
        refine ⟨fun hmem => ?_, ih'⟩
        rcases (mem_keys_mapSet rest k v k₀).1 hmem with hm | he
        · exact h.1 hm
        · exact hk he

theorem mapGet_mapDelete_self {α : Type} (m : List (String × α)) (k : String)
    (h : nodupKeys m) : mapGet (mapDelete m k) k = none := by
  induction m with
  | nil => simp [mapDelete, mapGet]
  | cons p rest ih =>
      obtain ⟨k₀, v₀⟩ := p
      simp only [nodupKeys, keys, List.map_cons, List.nodup_cons] at h
      by_cases hk : k₀ = k
      · subst hk
        simpa [mapDelete] using (mapGet_eq_none_iff rest k₀).2 h.1
      · simp only [mapDelete, if_neg hk, mapGet]
        exact ih h.2

theorem mapGet_mapDelete_ne {α : Type} (m : List (String × α)) (k k' : String)
    (h : k' ≠ k) : mapGet (mapDelete m k) k' = mapGet m k' := by
  induction m with
  | nil => simp [mapDelete]
  | cons p rest ih =>
      obtain ⟨k₀, v₀⟩ := p
      by_cases hk : k₀ = k
      · subst hk
        have h' : ¬ k₀ = k' := fun hh => h hh.symm
        simp [mapDelete, mapGet, h']
      · simp only [mapDelete, if_neg hk, mapGet, ih]

theorem mapGet_filter {α : Type} (p : String × α → Bool)
    (m : List (String × α)) (k : String) (h : nodupKeys m) :
    mapGet (m.filter p) k =
      match mapGet m k with
      | some v => if p (k, v) then some v else none
      | none => none := by
  induction m with
  | nil => simp [mapGet]
  | cons q rest ih =>
      obtain ⟨k₀, v₀⟩ := q
      simp only [nodupKeys, keys, List.map_cons, List.nodup_cons] at h
      by_cases hk : k₀ = k
      · subst hk
        simp only [mapGet, if_pos rfl, List.filter_cons]
        by_cases hp : p (k₀, v₀)
        · simp [hp, mapGet]
        · have hnone : mapGet (rest.filter p) k₀ = none := by
            rw [mapGet_eq_none_iff]
            intro hmem
            apply h.1
            simp only [keys, List.mem_map] at hmem ⊢
            obtain ⟨e, he, hfst⟩ := hmem
            exact ⟨e, (List.mem_filter.1 he).1, hfst⟩
          simp [hp, hnone]
      · simp only [mapGet, if_neg hk, List.filter_cons]
        by_cases hp : p (k₀, v₀)
        · simp only [hp, if_pos]
          simp only [mapGet, if_neg hk]
          exact ih h.2
        · simp only [hp, Bool.false_eq_true, if_neg]
          exact ih h.2

/-! ### Aggregation-tick lemmas -/

theorem elapsedSec_mono (now₁ now₂ t : Int) (h : now₁ ≤ now₂) :
    elapsedSec now₁ t ≤ elapsedSec now₂ t := by
  unfold elapsedSec
  rw [Int.fdiv_eq_ediv _ (by norm_num), Int.fdiv_eq_ediv _ (by norm_num)]
  exact Int.ediv_le_ediv (by norm_num) (by omega)

theorem elapsedSec_nonneg (now t : Int) (h : t ≤ now) : 0 ≤ elapsedSec now t :=
  Int.fdiv_nonneg (by omega) (by norm_num)

theorem accum_getD (now : Int) (l : List (String × ActiveSession)) :
    ∀ (m : List (String × Int)) (u : String),
      (mapGet (accumUserSecs now m l) u).getD 0 =
        (mapGet m u).getD 0 + userActiveSum now u l := by
  induction l with
  | nil => intro m u; simp [accumUserSecs, userActiveSum]
  | cons p rest ih =>
      intro m u
      obtain ⟨sid, s⟩ := p
      simp only [accumUserSecs, userActiveSum]
      rw [ih, mapGet_mapSet]
      by_cases h : u = s.userId
      · subst h; simp; ring
      · have h' : s.userId ≠ u := fun hh => h hh.symm
        simp [h, h']

theorem accum_isSome (now : Int) (l : List (String × ActiveSession)) :
    ∀ (m : List (String × Int)) (u : String),
      (mapGet (accumUserSecs now m l) u).isSome =
        ((mapGet m u).isSome || hasActive l u) := by
  induction l with
  | nil => intro m u; simp [accumUserSecs, hasActive]
  | cons p rest ih =>
      intro m u
      obtain ⟨sid, s⟩ := p
      simp only [accumUserSecs, hasActive, List.any_cons]
      rw [ih, mapGet_mapSet]
      by_cases h : u = s.userId
      · subst h; simp [hasActive]
      · have h' : ¬ s.userId = u := fun hh => h hh.symm
        simp [h, h', hasActive]

theorem nodupKeys_accum (now : Int) (l : List (String × ActiveSession)) :
    ∀ m : List (String × Int), nodupKeys m → nodupKeys (accumUserSecs now m l) := by
  induction l with
  | nil => intro m hm; exact hm
  | cons p rest ih =>
      intro m hm
      obtain ⟨sid, s⟩ := p
      exact ih _ (nodupKeys_mapSet _ _ _ hm)

theorem applyUserSecs_get (now : Int) (us : List (String × Int)) :
    ∀ (led : List (String × UserLedger)) (u : String), nodupKeys us →
      mapGet (applyUserSecs now led us) u =
        match mapGet us u with
        | some secs =>
            (mapGet led u).map
              (fun e => { e with totalSeconds := secs, lastUpdate := now })
        | none => mapGet led u := by
  induction us with
  | nil => intro led u _; simp [applyUserSecs, mapGet]
  | cons p rest ih =>
      intro led u hnd
      obtain ⟨uid, secs⟩ := p
      simp only [nodupKeys, keys, List.map_cons, List.nodup_cons] at hnd
      have hnd' : nodupKeys rest := hnd.2
      have huid : mapGet rest uid = none :=
        (mapGet_eq_none_iff rest uid).2 hnd.1
      simp only [applyUserSecs]
      rw [ih _ _ hnd']
      by_cases h : uid = u
      · subst h
        rw [huid]
        cases hled : mapGet led uid with
        | none => simp [mapGet, hled]
        | some e => simp [mapGet, hled, mapGet_mapSet]
      · have h' : ¬ uid = u := h
        cases hled : mapGet led uid with
        | none => simp [mapGet, h']
        | some e =>
            simp only [mapGet, if_neg h', hled]
            rw [mapGet_mapSet, if_neg fun hh : u = uid => h hh.symm]

/-- The aggregation tick never touches the session registry. -/
theorem aggregationTick_activeSessions (st : ServerState) (now : Int) :
    (aggregationTick st now).activeSessions = st.activeSessions := rfl

/-- The aggregation tick never touches `isInitialized`. -/
theorem aggregationTick_isInitialized (st : ServerState) (now : Int) :
    (aggregationTick st now).isInitialized = st.isInitialized := rfl

/-- What one aggregation tick does to a user's ledger binding: a user with at
least one active session has the entry's `totalSeconds` overwritten by the
sum of floor-elapsed seconds over their open sessions and `lastUpdate` set to
`now`; any other user's binding is returned unchanged. -/
theorem aggregationTick_ledger_get (st : ServerState) (now : Int) (u : String) :
    mapGet (aggregationTick st now).userLedger u =
      if hasActive st.activeSessions u then
        (mapGet st.userLedger u).map
          (fun e => { e with
            totalSeconds := userActiveSum now u st.activeSessions,
            lastUpdate := now })
      else mapGet st.userLedger u := by
  unfold aggregationTick
  simp only
  rw [applyUserSecs_get _ _ _ _
    (nodupKeys_accum now st.activeSessions [] (by simp [nodupKeys, keys]))]
  have hs : (mapGet (accumUserSecs now [] st.activeSessions) u).isSome =
      hasActive st.activeSessions u := by
    rw [accum_isSome]; simp [mapGet]
  have hd : (mapGet (accumUserSecs now [] st.activeSessions) u).getD 0 =
      userActiveSum now u st.activeSessions := by
    rw [accum_getD]; simp [mapGet]
  cases hacc : mapGet (accumUserSecs now [] st.activeSessions) u with
  | none =>
      rw [hacc] at hs
      simp only [Option.isSome_none] at hs
      rw [if_neg (by simp [← hs])]
  | some x =>
      rw [hacc] at hs hd
      simp only [Option.isSome_some] at hs
      simp only [Option.getD_some] at hd
      rw [if_pos (by simp [← hs]), hd]

theorem userActiveSum_nonneg (now : Int) (u : String)
    (l : List (String × ActiveSession))
    (h : ∀ p ∈ l, p.2.startTime ≤ now) : 0 ≤ userActiveSum now u l := by
  induction l with
  | nil => simp [userActiveSum]
  | cons p rest ih =>
      simp only [userActiveSum]
      have h1 : 0 ≤ if p.2.userId = u then elapsedSec now p.2.startTime else 0 := by
        by_cases hc : p.2.userId = u
        · simpa [hc] using elapsedSec_nonneg now p.2.startTime (h p (by simp))
        · simp [hc]
      have h2 := ih fun q hq => h q (List.mem_cons_of_mem _ hq)
      omega

theorem userActiveSum_mono (now₁ now₂ : Int) (u : String)
    (l : List (String × ActiveSession)) (h : now₁ ≤ now₂) :
    userActiveSum now₁ u l ≤ userActiveSum now₂ u l := by
  induction l with
  | nil => simp [userActiveSum]
  | cons p rest ih =>
      simp only [userActiveSum]
      have h1 : (if p.2.userId = u then elapsedSec now₁ p.2.startTime else 0) ≤
          (if p.2.userId = u then elapsedSec now₂ p.2.startTime else 0) := by
        by_cases hc : p.2.userId = u
        · simpa [hc] using elapsedSec_mono now₁ now₂ p.2.startTime h
        · simp [hc]
      omega

/-- `stop` never writes to the ledger, in any of its branches. -/
theorem stop_userLedger_eq (st : ServerState) (a b : Option String)
    (now : Int) : (stop st a b now).2.userLedger = st.userLedger := by
  unfold stop
  by_cases hpc : present a = true ∧ present b = true
  · rw [if_neg (by simp [hpc.1, hpc.2])]
    cases h : mapGet st.activeSessions (a.getD "") with
    | none => simp [h]
    | some sess =>
        simp only [h]
        by_cases hm : sess.userId = b.getD ""
        · simp [hm]
        · simp [hm]
  · rw [if_pos hpc]

/-! ### Claims -/

/-- C1: at an aggregation tick, every user with at least one active session
(and a ledger entry, as `start` guarantees) has `totalSeconds` replaced by
the sum over all their open sessions of `floor((now - startTime)/1000)`,
and `lastUpdate` set to `now`. -/
theorem C1_tick_replaces_total_with_session_sum (st : ServerState) (now : Int)
    (u : String)
    (hact : hasActive st.activeSessions u = true)
    (hled : (mapGet st.userLedger u).isSome) :
    ∃ e, mapGet (aggregationTick st now).userLedger u = some e ∧
      e.totalSeconds = userActiveSum now u st.activeSessions ∧
      e.lastUpdate = now := by
  rw [aggregationTick_ledger_get, if_pos hact]
  obtain ⟨e, he⟩ := Option.isSome_iff_exists.1 hled
  rw [he]
  exact ⟨_, rfl, rfl, rfl⟩

/-- C1 witness: two sessions of `u` started at 0 and 2000, ticked at 5000,
give `5 + 3 = 8` total seconds. -/
theorem C1_witness :
    ∃ e, mapGet (aggregationTick exTwoSessions 5000).userLedger "u" = some e ∧
      e.totalSeconds = 8 ∧ e.lastUpdate = 5000 := by
  obtain ⟨e, h1, h2, h3⟩ :=
    C1_tick_replaces_total_with_session_sum exTwoSessions 5000 "u"
      (by decide) (by decide)
  refine ⟨e, h1, ?_, h3⟩
  rw [h2]
  decide

/-- C3: an aggregation tick leaves the ledger binding of every user with no
active session untouched (the whole entry, `totalSeconds` and `lastUpdate`
included). -/
theorem C3_tick_frames_inactive_users (st : ServerState) (now : Int)
    (u : String) (hact : hasActive st.activeSessions u = false) :
    mapGet (aggregationTick st now).userLedger u = mapGet st.userLedger u := by
  rw [aggregationTick_ledger_get, if_neg (by simp [hact])]

/-- C3 witness: `v` has a ledger entry (42 s) and no open session; a tick at
5000 leaves the entry exactly as it was. -/
theorem C3_witness :
    mapGet (aggregationTick exTwoSessions 5000).userLedger "v" =
      mapGet exTwoSessions.userLedger "v" ∧
    mapGet exTwoSessions.userLedger "v" = some ⟨"v", 42, 1000⟩ :=
  ⟨C3_tick_frames_inactive_users exTwoSessions 5000 "v" (by decide), by decide⟩

/-- C5: `stop` on a sessionId absent from the registry returns
`NotFoundError` and returns the state unchanged (registry and ledger). -/
theorem C5_stop_unknown_not_found (st : ServerState) (sid uid : String)
    (now : Int) (hsid : sid ≠ "") (huid : uid ≠ "")
    (habs : mapGet st.activeSessions sid = none) :
    stop st (some sid) (some uid) now = (StopResult.notFoundError, st) := by
  unfold stop
  rw [if_neg (by simp [present, hsid, huid])]
  simp only [Option.getD_some]
  rw [habs]

/-- C5 witness: stopping the unknown session `zz` fails with not-found and
changes nothing. -/
theorem C5_witness :
    stop exTwoSessions (some "zz") (some "u") 5000 =
      (StopResult.notFoundError, exTwoSessions) :=
  C5_stop_unknown_not_found exTwoSessions "zz" "u" 5000 (by decide) (by decide)
    (by decide)

/-- C6: `stop` on an existing session with a non-owner userId returns
`ForbiddenError`, returns the state unchanged, and the session is still
registered. -/
theorem C6_stop_mismatch_forbidden (st : ServerState) (sid uid : String)
    (now : Int) (sess : ActiveSession)
    (hsid : sid ≠ "") (huid : uid ≠ "")
    (hfind : mapGet st.activeSessions sid = some sess)
    (hmis : sess.userId ≠ uid) :
    stop st (some sid) (some uid) now = (StopResult.forbiddenError, st) ∧
    mapGet st.activeSessions sid = some sess := by
  refine ⟨?_, hfind⟩
  unfold stop
  rw [if_neg (by simp [present, hsid, huid])]
  simp only [Option.getD_some]
  rw [hfind]
  simp [hmis]

/-- C6 witness: `v` cannot stop `u`'s session `s1`; the session survives. -/
theorem C6_witness :
    stop exTwoSessions (some "s1") (some "v") 5000 =
      (StopResult.forbiddenError, exTwoSessions) ∧
    mapGet exTwoSessions.activeSessions "s1" = some ⟨"s1", "u", "c1", 0⟩ :=
  C6_stop_mismatch_forbidden exTwoSessions "s1" "v" 5000 ⟨"s1", "u", "c1", 0⟩
    (by decide) (by decide) (by decide) (by decide)

/-- C10: the missing-field check runs before the initialization check, so a
request lacking `userId` or `contentId` gets `ValidationError` whatever
`isInitialized` is, and `NotReadyError` occurs only when both fields are
present. -/
theorem C10_validation_checked_before_init (st : ServerState)
    (userId contentId : Option String) (fid : String) (now : Int) :
    ((present userId = false ∨ present contentId = false) →
        (start st userId contentId fid now).1 = StartResult.validationError) ∧
    ((start st userId contentId fid now).1 = StartResult.notReadyError →
        present userId = true ∧ present contentId = true) := by
  constructor
  · intro h
    unfold start
    rw [if_pos (by rcases h with h | h <;> simp [h])]
  · intro h
    by_cases hu : present userId <;> by_cases hc : present contentId
    · exact ⟨hu, hc⟩
    all_goals
      exfalso
      unfold start at h
      rw [if_pos (by simp [hu, hc])] at h
      exact StartResult.noConfusion h

/-- C10 witness: with the service uninitialized, a request with no `userId`
still gets `ValidationError`, not `NotReadyError`. -/
theorem C10_witness :
    (start ⟨[], [], false⟩ none (some "c") "f" 7).1 =
      StartResult.validationError :=
  (C10_validation_checked_before_init ⟨[], [], false⟩ none (some "c") "f" 7).1
    (Or.inl (by decide))

/-- C2 counterexample: `u` runs `s1` and `s2` from time 0; the tick at 10000
sets the total to 20; `u` stops `s1`; the next tick at 11000 recomputes the
total from `s2` alone, 11 < 20, even though `u` still has an active session —
so `totalSeconds` is not monotone across ticks under an intervening stop. -/
theorem C2_counterexample :
    hasActive cexAfterStop.activeSessions "u" = true ∧
    (mapGet cexAfterStop.userLedger "u").map (fun e => e.totalSeconds) =
      some 20 ∧
    (mapGet cexAfterTick2.userLedger "u").map (fun e => e.totalSeconds) =
      some 11 ∧
    (11 : Int) < 20 := by
  refine ⟨by decide, by decide, by decide, by decide⟩

/-- C2 amended: `totalSeconds` is a non-negative integer, and from one
aggregation tick to a later one it is non-decreasing provided the user's set
of active sessions did not change in between (no stop or reaper removal);
removing one of several concurrent sessions may strictly decrease the
recomputed total at the next tick. -/
theorem C2_total_nonneg_monotone_without_removals (st : ServerState)
    (u : String) (now₁ now₂ : Int)
    (hle : now₁ ≤ now₂)
    (hstart : ∀ p ∈ st.activeSessions, p.2.startTime ≤ now₁)
    (hact : hasActive st.activeSessions u = true)
    (e₁ : UserLedger)
    (h₁ : mapGet (aggregationTick st now₁).userLedger u = some e₁) :
    ∃ e₂, mapGet (aggregationTick (aggregationTick st now₁) now₂).userLedger u
        = some e₂ ∧
      e₁.totalSeconds ≤ e₂.totalSeconds ∧ 0 ≤ e₁.totalSeconds := by
  have hsess : (aggregationTick st now₁).activeSessions = st.activeSessions :=
    aggregationTick_activeSessions st now₁
  have hget₁ := aggregationTick_ledger_get st now₁ u
  rw [if_pos hact] at hget₁
  rw [hget₁] at h₁
  cases h₀ : mapGet st.userLedger u with
  | none => rw [h₀] at h₁; simp at h₁
  | some e₀ =>
      rw [h₀] at h₁
      simp only [Option.map_some'] at h₁
      obtain rfl := Option.some.inj h₁
      have hget₂ := aggregationTick_ledger_get (aggregationTick st now₁) now₂ u
      rw [hsess, if_pos hact, hget₁, h₀] at hget₂
      simp only [Option.map_some'] at hget₂
      refine ⟨_, hget₂, ?_, ?_⟩
      · simpa using userActiveSum_mono now₁ now₂ u st.activeSessions hle
      · simpa using userActiveSum_nonneg now₁ u st.activeSessions hstart

/-- C2 witness: two ticks at 5000 and 6000 over an unchanged registry take
`u`'s total from 8 to at least 8, and 8 is non-negative. -/
theorem C2_witness :
    ∃ e₂, mapGet
        (aggregationTick (aggregationTick exTwoSessions 5000) 6000).userLedger
        "u" = some e₂ ∧
      (UserLedger.mk "u" 8 5000).totalSeconds ≤ e₂.totalSeconds ∧
      0 ≤ (UserLedger.mk "u" 8 5000).totalSeconds :=
  C2_total_nonneg_monotone_without_removals exTwoSessions "u" 5000 6000
    (by decide) (by decide) (by decide) ⟨"u", 8, 5000⟩ (by decide)

/-- C4: a successful `stop` removes the session from the registry, reports
`sessionSeconds = floor((now - startTime)/1000)`,
`sessionCost = sessionSeconds * pricePerSecond` and the user's current ledger
total, and leaves the ledger untouched. -/
theorem C4_stop_success (st : ServerState) (sid uid : String) (now : Int)
    (sess : ActiveSession) (e : UserLedger)
    (hsid : sid ≠ "") (huid : uid ≠ "")
    (hnd : nodupKeys st.activeSessions)
    (hfind : mapGet st.activeSessions sid = some sess)
    (hown : sess.userId = uid)
    (hled : mapGet st.userLedger uid = some e) :
    stop st (some sid) (some uid) now =
      (StopResult.ok sid (elapsedSec now sess.startTime)
         ((elapsedSec now sess.startTime : ℚ) * PRICE_PER_SECOND)
         e.totalSeconds,
       { st with activeSessions := mapDelete st.activeSessions sid }) ∧
    mapGet (mapDelete st.activeSessions sid) sid = none := by
  refine ⟨?_, mapGet_mapDelete_self _ _ hnd⟩
  unfold stop
  rw [if_neg (by simp [present, hsid, huid])]
  simp only [Option.getD_some]
  rw [hfind]
  simp only [hown]
  rw [if_neg (by simp), hled]
  simp

/-- C4 witness: `u` stops `s1` at 5000 ms: 5 seconds, cost `5 * 1/1000`, the
ledger total 0 is reported, `s1` is gone, and the ledger is untouched. -/
theorem C4_witness :
    stop exTwoSessions (some "s1") (some "u") 5000 =
      (StopResult.ok "s1" 5 ((5 : ℚ) * PRICE_PER_SECOND) 0,
       { exTwoSessions with
          activeSessions := mapDelete exTwoSessions.activeSessions "s1" }) ∧
    mapGet (mapDelete exTwoSessions.activeSessions "s1") "s1" = none :=
  C4_stop_success exTwoSessions "s1" "u" 5000 ⟨"s1", "u", "c1", 0⟩ ⟨"u", 0, 0⟩
    (by decide) (by decide) (by decide) (by decide) (by decide) (by decide)

/-- C7: `start` rejects a missing `userId`/`contentId` with
`ValidationError`, rejects an uninitialized service with `NotReadyError`,
and on success registers a fresh session stamped with the call instant and
ensures a ledger entry exists, creating a zero-valued one only if none was
there (an existing ledger is left untouched). -/
theorem C7_start_validation_init_and_success (st : ServerState)
    (userId contentId : Option String) (fid : String) (now : Int) :
    ((present userId = false ∨ present contentId = false) →
        start st userId contentId fid now = (StartResult.validationError, st)) ∧
    (present userId = true → present contentId = true →
      st.isInitialized = false →
        start st userId contentId fid now = (StartResult.notReadyError, st)) ∧
    (present userId = true → present contentId = true →
      st.isInitialized = true →
        ∃ st', start st userId contentId fid now =
            (StartResult.ok fid PRICE_PER_SECOND now, st') ∧
          mapGet st'.activeSessions fid =
            some ⟨fid, userId.getD "", contentId.getD "", now⟩ ∧
          ((mapGet st.userLedger (userId.getD "")).isSome →
              st'.userLedger = st.userLedger) ∧
          (mapGet st.userLedger (userId.getD "") = none →
              mapGet st'.userLedger (userId.getD "") =
                some ⟨userId.getD "", 0, now⟩)) := by
  refine ⟨?_, ?_, ?_⟩
  · intro h
    unfold start
    rw [if_pos (by rcases h with h | h <;> simp [h])]
  · intro hu hc hinit
    unfold start
    rw [if_neg (by simp [hu, hc]), if_pos (by simp [hinit])]
  · intro hu hc hinit
    unfold start
    rw [if_neg (by simp [hu, hc]), if_neg (by simp [hinit])]
    refine ⟨_, rfl, ?_, ?_, ?_⟩
    · rw [mapGet_mapSet, if_pos rfl]
    · intro h
      simp [h]
    · intro h
      have h' : (mapGet st.userLedger (userId.getD "")).isSome = false := by
        simp [h]
      simp only [h', Bool.false_eq_true, if_false]
      rw [mapGet_mapSet, if_pos rfl]

/-- C7 witness: the three behaviours at concrete requests — missing
`contentId` gives validation, uninitialized service gives not-ready, and a
good request registers `⟨f, u, c, 3⟩` and creates the zero ledger entry. -/
theorem C7_witness :
    start ⟨[], [], true⟩ (some "u") none "f" 3 =
      (StartResult.validationError, ⟨[], [], true⟩) ∧
    start ⟨[], [], false⟩ (some "u") (some "c") "f" 3 =
      (StartResult.notReadyError, ⟨[], [], false⟩) ∧
    ∃ st', start ⟨[], [], true⟩ (some "u") (some "c") "f" 3 =
        (StartResult.ok "f" PRICE_PER_SECOND 3, st') ∧
      mapGet st'.activeSessions "f" = some ⟨"f", "u", "c", 3⟩ ∧
      mapGet st'.userLedger "u" = some ⟨"u", 0, 3⟩ := by
  refine ⟨(C7_start_validation_init_and_success ⟨[], [], true⟩ (some "u") none
      "f" 3).1 (Or.inr (by decide)),
    (C7_start_validation_init_and_success ⟨[], [], false⟩ (some "u") (some "c")
      "f" 3).2.1 (by decide) (by decide) rfl, ?_⟩
  obtain ⟨st', h1, h2, _, h4⟩ :=
    (C7_start_validation_init_and_success ⟨[], [], true⟩ (some "u") (some "c")
      "f" 3).2.2 (by decide) (by decide) rfl
  exact ⟨st', h1, h2, h4 (by decide)⟩

/-- C8: a reaper run deletes exactly the sessions strictly older than
`AUTO_STOP_TIMEOUT` (300000 ms), keeps every session at or below the
threshold, and does not touch the ledger. -/
theorem C8_reaper_evicts_only_expired (st : ServerState) (now : Int)
    (hnd : nodupKeys st.activeSessions) :
    (reaperTick st now).userLedger = st.userLedger ∧
    ∀ sid sess, mapGet st.activeSessions sid = some sess →
      mapGet (reaperTick st now).activeSessions sid =
        if now - sess.startTime > AUTO_STOP_TIMEOUT then none
        else some sess := by
  refine ⟨rfl, fun sid sess hfind => ?_⟩
  unfold reaperTick
  simp only
  rw [mapGet_filter _ _ _ hnd, hfind]
  by_cases hc : now - sess.startTime > AUTO_STOP_TIMEOUT
  · simp [hc]
  · simp [hc]

/-- C8 witness: at time 400000, session `a` (age 400000 ms) is reaped,
session `b` (age exactly 300000 ms) stays, the ledger is untouched. -/
theorem C8_witness :
    (reaperTick exReap 400000).userLedger = exReap.userLedger ∧
    mapGet (reaperTick exReap 400000).activeSessions "a" = none ∧
    mapGet (reaperTick exReap 400000).activeSessions "b" =
      some ⟨"b", "u", "c", 100000⟩ := by
  obtain ⟨hl, hs⟩ := C8_reaper_evicts_only_expired exReap 400000 (by decide)
  refine ⟨hl, ?_, ?_⟩
  · rw [hs "a" ⟨"a", "u", "c", 0⟩ (by decide)]
    decide
  · rw [hs "b" ⟨"b", "u", "c", 100000⟩ (by decide)]
    decide

/-- C9: no operation ever removes a ledger entry — `start`, `stop`, the
aggregation tick and the reaper all preserve existing entries, and a
successful `start` guarantees the caller's entry exists afterwards — so the
ledger's key set only grows. -/
theorem C9_ledger_entries_never_removed (st : ServerState) (u : String)
    (now : Int) (uid cid sid suid : Option String) (fid : String) :
    ((mapGet st.userLedger u).isSome →
        (mapGet (start st uid cid fid now).2.userLedger u).isSome) ∧
    ((stop st sid suid now).2.userLedger = st.userLedger) ∧
    ((mapGet st.userLedger u).isSome →
        (mapGet (aggregationTick st now).userLedger u).isSome) ∧
    ((reaperTick st now).userLedger = st.userLedger) ∧
    (present uid = true → present cid = true → st.isInitialized = true →
        (mapGet (start st uid cid fid now).2.userLedger (uid.getD "")).isSome) := by
  refine ⟨?_, stop_userLedger_eq st sid suid now, ?_, rfl, ?_⟩
  · intro h
    unfold start
    split
    · exact h
    · split
      · exact h
      · simp only
        by_cases hl : (mapGet st.userLedger (uid.getD "")).isSome
        · simp [hl, h]
        · rw [if_neg hl, mapGet_mapSet]
          by_cases he : u = uid.getD "" <;> simp [he, h]
  · intro h
    rw [aggregationTick_ledger_get]
    by_cases hact : hasActive st.activeSessions u = true
    · rw [if_pos hact]
      simpa using h
    · rw [if_neg hact]
      exact h
  · intro hu hc hinit
    unfold start
    rw [if_neg (by simp [hu, hc]), if_neg (by simp [hinit])]
    simp only
    by_cases hl : (mapGet st.userLedger (uid.getD "")).isSome
    · simp [hl]
    · rw [if_neg hl, mapGet_mapSet, if_pos rfl]
      rfl

/-- C9 witness: `v`'s entry survives a tick, `stop` leaves the ledger as is,
and a successful `start` by the new user `w` creates `w`'s entry. -/
theorem C9_witness :
    (mapGet (aggregationTick exTwoSessions 5000).userLedger "v").isSome ∧
    (stop exTwoSessions (some "s1") (some "u") 5000).2.userLedger =
      exTwoSessions.userLedger ∧
    (mapGet (start exTwoSessions (some "w") (some "c") "f" 5000).2.userLedger
      "w").isSome := by
  obtain ⟨h1, h2, h3, h4, h5⟩ := C9_ledger_entries_never_removed exTwoSessions
    "v" 5000 (some "w") (some "c") (some "s1") (some "u") "f"
  exact ⟨h3 (by decide), h2, h5 (by decide) (by decide) rfl⟩

end Streams
